import Mathlib

/- Shallow embedding of the tool-tracking / trajectory / citation subsystem
   shared by the beeai-demos agents (chat-agent.py, citation-agent.py,
   trajectory-agent.py).  Python strings are modelled as lists of characters;
   `str.lower` as a character-wise lowercase map; `str.find` returns an
   integer index or -1; the substring operator `in` is substring containment
   on character lists. -/

/-- Python `s.lower()`, character-wise. -/
def pyLower (s : List Char) : List Char := s.map Char.toLower

/-- Helper for `pyFind`: scan suffixes of `s`, tracking the current index. -/
def pyFindAux (w : List Char) : List Char → Nat → Int
  | [], i => if w.isPrefixOf [] then (i : Int) else -1
  | c :: rest, i =>
    if w.isPrefixOf (c :: rest) then (i : Int) else pyFindAux w rest (i + 1)

/-- Python `s.find(w)`: index of the first occurrence of `w` in `s`, or -1. -/
def pyFind (s w : List Char) : Int := pyFindAux w s 0

/-- Python slice `s[a:b]` for `0 ≤ a ≤ b`. -/
def pySliceNat (s : List Char) (a b : Nat) : List Char := (s.drop a).take (b - a)

/-- Whitespace test used by Python `str.strip` and `str.split`. -/
def isWs (c : Char) : Bool := c.isWhitespace

/-- Python `s.strip()`: drop whitespace from both ends. -/
def pyStrip (l : List Char) : List Char := List.rdropWhile isWs (l.dropWhile isWs)

/-- Helper for `pySplit`: accumulate the current (reversed) word. -/
def pySplitAux : List Char → List Char → List (List Char)
  | [], acc => if acc.isEmpty then [] else [acc.reverse]
  | c :: rest, acc =>
    if isWs c then
      if acc.isEmpty then pySplitAux rest [] else acc.reverse :: pySplitAux rest []
    else pySplitAux rest (c :: acc)

/-- Python `s.split()` with no argument: whitespace-delimited nonempty words. -/
def pySplit (s : List Char) : List (List Char) := pySplitAux s []

/-- The description truncation from chat-agent.py line 236 / citation-agent.py
    line 85: `d[:100] + "..." if len(d) > 100 else d`. -/
def truncDesc (d : List Char) : List Char :=
  if 100 < d.length then d.take 100 ++ ['.', '.', '.'] else d

/-- A search result hit as consumed from the search tools. -/
structure SearchHit where
  title : List Char
  url : List Char
  description : List Char
  deriving DecidableEq

/-- The tool tags the tracking wrappers append to the invocation log. -/
inductive ToolName where
  | wikipedia
  | duckDuckGo
  | openMeteo
  deriving DecidableEq

/-- A tracked tool output: either an object with a `results` list of hits, or
    anything without citable structure. -/
inductive ToolOutput where
  | withResults : List SearchHit → ToolOutput
  | unstructured : ToolOutput
  deriving DecidableEq

/-- The `CitationMetadata` payload emitted for one citation. -/
structure CitationSpan where
  url : List Char
  title : List Char
  description : List Char
  startOffset : Int
  endOffset : Int
  deriving DecidableEq

/-- The `results` attribute of a tool output (empty when absent). -/
def hitsOf : ToolOutput → List SearchHit
  | .withResults hs => hs
  | .unstructured => []

/-- Python truthiness of `hasattr(out, 'results') and out.results`. -/
def truthyResults : ToolOutput → Bool
  | .withResults hs => !hs.isEmpty
  | .unstructured => false

/-- The word-scan of a hit title (chat-agent.py lines 228-231 / 250-253,
    citation-agent.py lines 77-80): first word whose lowercase form occurs in
    the lowercased answer, whose length exceeds the threshold, and whose
    `find` did not fail. -/
def firstCiteWord (resp : List Char) (thresh : Nat) : List (List Char) → Option (List Char)
  | [] => none
  | w :: ws =>
    if pyLower w <:+: pyLower resp ∧ thresh < w.length ∧
        pyFind (pyLower resp) (pyLower w) ≠ -1 then
      some w
    else firstCiteWord resp thresh ws

/-- The citation built for a hit from its matched anchor word. -/
def mkSpan (resp : List Char) (hit : SearchHit) (w : List Char) : CitationSpan :=
  { url := hit.url
    title := hit.title
    description := truncDesc hit.description
    startOffset := pyFind (pyLower resp) (pyLower w)
    endOffset := pyFind (pyLower resp) (pyLower w) + (w.length : Int) }

/-- At most one citation per hit: scan the split title for an anchor word. -/
def hitCitation (resp : List Char) (thresh : Nat) (hit : SearchHit) : Option CitationSpan :=
  (firstCiteWord resp thresh (pySplit hit.title)).map (mkSpan resp hit)

/-- citation-agent.py hit loop (no cap): one optional citation per hit. -/
def wikiAll (resp : List Char) (thresh : Nat) (hits : List SearchHit) : List CitationSpan :=
  hits.filterMap (hitCitation resp thresh)

/-- chat-agent.py hit loop: `if citation_count >= 10: break` before each hit,
    counter incremented on emission. -/
def wikiCapped (resp : List Char) (thresh : Nat) : Nat → List SearchHit → List CitationSpan
  | _, [] => []
  | cnt, hit :: hits =>
    if 10 ≤ cnt then []
    else
      match hitCitation resp thresh hit with
      | some s => s :: wikiCapped resp thresh (cnt + 1) hits
      | none => wikiCapped resp thresh cnt hits

/-- The weather vocabulary of chat-agent.py line 268. -/
def chatWeatherWords : List (List Char) :=
  ["weather", "temperature", "warm", "cool", "forecast", "conditions",
    "climate", "rain", "sunny", "cloudy", "wind", "humidity"].map String.data

/-- The weather vocabulary of citation-agent.py line 111. -/
def bostonWeatherWords : List (List Char) :=
  ["weather", "temperature", "warm", "cool", "forecast", "conditions"].map String.data

/-- Fixed weather-source url. -/
def openMeteoUrl : List Char := "https://open-meteo.com/".data

/-- Fixed weather-source title. -/
def openMeteoTitle : List Char := "Open-Meteo Weather API".data

/-- Fixed weather-source description in chat-agent.py. -/
def chatWeatherDesc : List Char := "Real-time weather data and forecasts".data

/-- Fixed weather-source description in citation-agent.py. -/
def bostonWeatherDesc : List Char := "Weather data from Open-Meteo".data

/-- The static weather citation: note `start_idx = resp.lower().find(word)`
    with no -1 check in either source file. -/
def weatherSpan (resp desc w : List Char) : CitationSpan :=
  { url := openMeteoUrl
    title := openMeteoTitle
    description := desc
    startOffset := pyFind (pyLower resp) w
    endOffset := pyFind (pyLower resp) w + (w.length : Int) }

/-- chat-agent.py weather branch (lines 266-284): cap check inside the word
    loop, stop at the first vocabulary word contained in the answer. -/
def weatherScan (resp : List Char) : Nat → List (List Char) → List CitationSpan
  | _, [] => []
  | cnt, w :: ws =>
    if 10 ≤ cnt then []
    else if w <:+: pyLower resp then [weatherSpan resp chatWeatherDesc w]
    else weatherScan resp cnt ws

/-- citation-agent.py weather branch (lines 109-124): same, without a cap. -/
def weatherScanB (resp : List Char) : List (List Char) → List CitationSpan
  | [] => []
  | w :: ws =>
    if w <:+: pyLower resp then [weatherSpan resp bostonWeatherDesc w]
    else weatherScanB resp ws

/-- Per-record dispatch of chat-agent.py (threshold 3 for Wikipedia, 4 for
    DuckDuckGo, weather vocabulary for OpenMeteo). -/
def recordSpansChat (resp : List Char) (cnt : Nat) : ToolName × ToolOutput → List CitationSpan
  | (.wikipedia, out) => if truthyResults out then wikiCapped resp 3 cnt (hitsOf out) else []
  | (.duckDuckGo, out) => if truthyResults out then wikiCapped resp 4 cnt (hitsOf out) else []
  | (.openMeteo, _) => weatherScan resp cnt chatWeatherWords

/-- chat-agent.py citation loop (lines 217-284): records in order, global
    counter, `if citation_count >= 10: break` before each record. -/
def extractChat (resp : List Char) : Nat → List (ToolName × ToolOutput) → List CitationSpan
  | _, [] => []
  | cnt, rec :: rest =>
    if 10 ≤ cnt then []
    else
      recordSpansChat resp cnt rec ++
        extractChat resp (cnt + (recordSpansChat resp cnt rec).length) rest

/-- Per-record dispatch of citation-agent.py (no cap anywhere). -/
def recordSpansBoston (resp : List Char) : ToolName × ToolOutput → List CitationSpan
  | (.wikipedia, out) => if truthyResults out then wikiAll resp 3 (hitsOf out) else []
  | (.duckDuckGo, out) => if truthyResults out then wikiAll resp 4 (hitsOf out) else []
  | (.openMeteo, _) => weatherScanB resp bostonWeatherWords

/-- citation-agent.py citation loop (lines 72-124). -/
def extractBoston (resp : List Char) : List (ToolName × ToolOutput) → List CitationSpan
  | [] => []
  | rec :: rest => recordSpansBoston resp rec ++ extractBoston resp rest

/-- Outcome of a Python call: a value or a raised exception. -/
inductive PyResult (α : Type) where
  | ok : α → PyResult α
  | exn : List Char → PyResult α
  deriving DecidableEq

/-- The tracking wrapper `_run` (citation-agent.py lines 36-52, chat-agent.py
    lines 58-67): call the underlying tool, append `(kind, result)` to the
    log on success, return the result; a raised exception skips the append
    and propagates. -/
def trackedRun {α : Type} (underlying : α → PyResult ToolOutput) (kind : ToolName)
    (log : List (ToolName × ToolOutput)) (inp : α) :
    List (ToolName × ToolOutput) × PyResult ToolOutput :=
  match underlying inp with
  | .ok r => (log ++ [(kind, r)], .ok r)
  | .exn e => (log, .exn e)

/-- Tool tags recognized by the trajectory classifier of trajectory-agent.py. -/
inductive ToolTag where
  | think
  | wikipedia
  | weather
  deriving DecidableEq

/-- One emitted trajectory step. -/
structure TrajectoryStep where
  index : Nat
  rawText : List Char
  toolName : Option ToolTag
  deriving DecidableEq

/-- The marker tests of trajectory-agent.py lines 107-113, first match wins. -/
def classify (step : List Char) : Option ToolTag :=
  if "ThinkTool".data <:+: step then some ToolTag.think
  else if "WikipediaTool".data <:+: step then some ToolTag.wikipedia
  else if "OpenMeteoTool".data <:+: step then some ToolTag.weather
  else none

/-- `TrajectoryCapture.write` (trajectory-agent.py lines 29-31): the line is
    stripped before being stored. -/
def captureWrite (steps : List (List Char)) (msg : List Char) : List (List Char) :=
  steps ++ [pyStrip msg]

/-- The capture sink applied to a whole stream of lines. -/
def captureAll (lines : List (List Char)) : List (List Char) := lines.map pyStrip

/-- The display loop of trajectory-agent.py lines 105-118:
    `for i, step in enumerate(steps): if step.strip(): emit Step i+1`. -/
def emitSteps : Nat → List (List Char) → List TrajectoryStep
  | _, [] => []
  | i, step :: rest =>
    if (pyStrip step).isEmpty then emitSteps (i + 1) rest
    else { index := i + 1, rawText := step, toolName := classify step } :: emitSteps (i + 1) rest

/-- Full pipeline from raw log lines to emitted trajectory steps. -/
def trajectorySteps (lines : List (List Char)) : List TrajectoryStep :=
  emitSteps 0 (captureAll lines)

/-- The basic well-formedness invariant of an emitted citation span: offsets
    form a nonempty half-open range inside the answer, and the sliced
    substring case-insensitively equals the matched anchor word. -/
def spanOk (resp : List Char) (s : CitationSpan) : Prop :=
  0 ≤ s.startOffset ∧ s.startOffset < s.endOffset ∧ s.endOffset ≤ (resp.length : Int) ∧
    ∃ w : List Char, w ≠ [] ∧ s.endOffset = s.startOffset + (w.length : Int) ∧
      pyLower (pySliceNat resp s.startOffset.toNat s.endOffset.toNat) = pyLower w

/-- `spanOk` together with the description-length bound actually enforced by
    the truncation (100-character prefix plus a 3-character ellipsis). -/
def spanGood (resp : List Char) (s : CitationSpan) : Prop :=
  spanOk resp s ∧ s.description.length ≤ 103

/-- `s` is genuinely anchored at the word `w`: the offsets form a nonempty
    half-open range inside the answer, `startOffset` is the index of the
    first case-insensitive occurrence of `w` in the answer, the range is
    exactly `w.length` characters long, and the sliced substring equals `w`
    under case-insensitive comparison. -/
def spanAnchored (resp : List Char) (s : CitationSpan) (w : List Char) : Prop :=
  w ≠ [] ∧ 0 ≤ s.startOffset ∧ s.startOffset < s.endOffset ∧
    s.endOffset ≤ (resp.length : Int) ∧
    s.startOffset = pyFind (pyLower resp) (pyLower w) ∧
    s.endOffset = s.startOffset + (w.length : Int) ∧
    pyLower (pySliceNat resp s.startOffset.toNat s.endOffset.toNat) = pyLower w

/-- Answer text of the weather scenario of the spec. -/
def respW : List Char := "expect sunny and warm weather tomorrow".data

/-- A single-record invocation log holding one OpenMeteo call. -/
def logW : List (ToolName × ToolOutput) := [(ToolName.openMeteo, ToolOutput.unstructured)]

/-- A hit whose title is a single qualifying word. -/
def hitB : SearchHit := ⟨"Boston".data, "u".data, "d".data⟩

/-- Eleven Wikipedia records, each bearing one matching hit. -/
def log11 : List (ToolName × ToolOutput) :=
  List.replicate 11 (ToolName.wikipedia, ToolOutput.withResults [hitB])

/-- A hit with a 150-character description. -/
def hit150 : SearchHit := ⟨"Boston".data, "u".data, List.replicate 150 'x'⟩

/-- A log containing the long-description hit. -/
def log150 : List (ToolName × ToolOutput) :=
  [(ToolName.wikipedia, ToolOutput.withResults [hit150])]

/-- Three trajectory lines, the middle of which is blank. -/
def exLines4 : List (List Char) := ["a".data, " ".data, "b".data]

/-- One trajectory line padded with whitespace. -/
def exLines5 : List (List Char) := ["  hi  ".data]

/-- The span the chat extractor emits for the weather scenario. -/
def exSpanW : CitationSpan := weatherSpan respW chatWeatherDesc ("weather".data)

/-- Answer used in the duplicate-offset scenario. -/
def respC : List Char := "I love Boston".data

/-- First hit whose title carries the word Boston. -/
def hitC1 : SearchHit := ⟨"Boston".data, "u1".data, "d1".data⟩

/-- Second hit whose title carries the word Boston. -/
def hitC2 : SearchHit := ⟨"Boston Marathon".data, "u2".data, "d2".data⟩

/-! ### Basic string lemmas -/

theorem pyLower_length (s : List Char) : (pyLower s).length = s.length := by
  simp [pyLower]

theorem pyLower_drop (s : List Char) (n : Nat) :
    pyLower (s.drop n) = (pyLower s).drop n := by
  simp [pyLower]

theorem pyLower_take (s : List Char) (n : Nat) :
    pyLower (s.take n) = (pyLower s).take n := by
  simp [pyLower]

theorem take_length_of_pre {w t : List Char} (h : w <+: t) : t.take w.length = w := by
  obtain ⟨r, rfl⟩ := h
  simp

theorem pyFindAux_cases (w : List Char) :
    ∀ (s : List Char) (i : Nat),
      pyFindAux w s i = -1 ∨
        ∃ k : Nat, k ≤ s.length ∧ pyFindAux w s i = ((i + k : Nat) : Int) ∧
          w <+: s.drop k := by
  intro s
  induction s with
  | nil =>
    intro i
    by_cases hp : w.isPrefixOf ([] : List Char) = true
    · right
      refine ⟨0, Nat.le_refl 0, ?_, ?_⟩
      · simp [pyFindAux, hp]
      · simpa using hp
    · left
      simp [pyFindAux, hp]
  | cons c rest ih =>
    intro i
    by_cases hp : w.isPrefixOf (c :: rest) = true
    · right
      refine ⟨0, Nat.zero_le _, ?_, ?_⟩
      · simp [pyFindAux, hp]
      · simpa using hp
    · rcases ih (i + 1) with h | ⟨k, hk1, hk2, hpre⟩
      · left
        simp [pyFindAux, hp, h]
      · right
        refine ⟨k + 1, by simpa using Nat.succ_le_succ hk1, ?_, ?_⟩
        · rw [show pyFindAux w (c :: rest) i = pyFindAux w rest (i + 1) by
            simp [pyFindAux, hp], hk2]
          congr 1
          omega
        · simpa using hpre

theorem pyFindAux_ne_neg_of_infix (w : List Char) :
    ∀ (s : List Char), w <:+: s → ∀ i : Nat, pyFindAux w s i ≠ -1 := by
  intro s
  induction s with
  | nil =>
    intro h i
    have hw : w = [] := by simpa using h
    subst hw
    simp [pyFindAux, List.isPrefixOf]
  | cons c rest ih =>
    intro h i
    by_cases hp : w.isPrefixOf (c :: rest) = true
    · simp [pyFindAux, hp]
    · have h2 : w <:+: rest := by
        rcases List.infix_cons_iff.mp h with h1 | h1
        · exact absurd (by simpa using h1 : w.isPrefixOf (c :: rest) = true) hp
        · exact h1
      rw [show pyFindAux w (c :: rest) i = pyFindAux w rest (i + 1) by
        simp [pyFindAux, hp]]
      exact ih h2 (i + 1)

theorem pyFind_ne_neg_of_infix {s w : List Char} (h : w <:+: s) : pyFind s w ≠ -1 :=
  pyFindAux_ne_neg_of_infix w s h 0

theorem pyFind_spec {s w : List Char} (h : pyFind s w ≠ -1) :
    ∃ k : Nat, k ≤ s.length ∧ pyFind s w = (k : Int) ∧ w <+: s.drop k := by
  rcases pyFindAux_cases w s 0 with h1 | ⟨k, hk1, hk2, hpre⟩
  · exact absurd h1 h
  · exact ⟨k, hk1, by simpa using hk2, hpre⟩

theorem pyFind_nonneg {s w : List Char} (h : pyFind s w ≠ -1) : 0 ≤ pyFind s w := by
  rcases pyFind_spec h with ⟨k, _, hk, _⟩
  rw [hk]
  omega

/-- Core property of a successful `find` against the lowercased answer:
    the result is an in-range index and slicing the answer there recovers the
    searched pattern up to lowercasing. -/
theorem span_core {resp p : List Char} (hfind : pyFind (pyLower resp) p ≠ -1) :
    ∃ k : Nat, pyFind (pyLower resp) p = (k : Int) ∧
      k + p.length ≤ resp.length ∧
      pyLower (pySliceNat resp k (k + p.length)) = p := by
  rcases pyFind_spec hfind with ⟨k, hk1, hk2, hpre⟩
  rw [pyLower_length] at hk1
  refine ⟨k, hk2, ?_, ?_⟩
  · have h1 := hpre.length_le
    rw [List.length_drop, pyLower_length] at h1
    omega
  · have hs : pySliceNat resp k (k + p.length) = (resp.drop k).take p.length := by
      simp [pySliceNat]
    rw [hs, pyLower_take, pyLower_drop]
    exact take_length_of_pre hpre

/-! ### Truncation -/

theorem truncDesc_length (d : List Char) : (truncDesc d).length ≤ 103 := by
  unfold truncDesc
  split
  · simp
  · omega

/-! ### Span well-formedness -/

theorem mkSpan_ok {resp : List Char} (hit : SearchHit) {w : List Char} (hw : w ≠ [])
    (hfind : pyFind (pyLower resp) (pyLower w) ≠ -1) :
    spanOk resp (mkSpan resp hit w) := by
  rcases span_core hfind with ⟨k, hk, hle, hslice⟩
  rw [pyLower_length] at hle hslice
  have hwpos : 0 < w.length := List.length_pos.mpr hw
  refine ⟨?_, ?_, ?_, w, hw, ?_, ?_⟩
  · simp only [mkSpan]
    rw [hk]
    omega
  · simp only [mkSpan]
    omega
  · simp only [mkSpan]
    rw [hk]
    omega
  · simp [mkSpan]
  · simp only [mkSpan]
    rw [hk]
    have h1 : ((k : Int)).toNat = k := Int.toNat_natCast k
    have h2 : ((k : Int) + (w.length : Int)).toNat = k + w.length := by omega
    rw [h1, h2, hslice]

theorem mkSpan_good {resp : List Char} (hit : SearchHit) {w : List Char} (hw : w ≠ [])
    (hfind : pyFind (pyLower resp) (pyLower w) ≠ -1) :
    spanGood resp (mkSpan resp hit w) :=
  ⟨mkSpan_ok hit hw hfind, truncDesc_length hit.description⟩

theorem weatherSpan_ok {resp w : List Char} (desc : List Char) (hw : w ≠ [])
    (hlow : pyLower w = w) (hin : w <:+: pyLower resp) :
    spanOk resp (weatherSpan resp desc w) := by
  have hfind : pyFind (pyLower resp) w ≠ -1 := pyFind_ne_neg_of_infix hin
  rcases span_core hfind with ⟨k, hk, hle, hslice⟩
  have hwpos : 0 < w.length := List.length_pos.mpr hw
  refine ⟨?_, ?_, ?_, w, hw, ?_, ?_⟩
  · simp only [weatherSpan]
    rw [hk]
    omega
  · simp only [weatherSpan]
    omega
  · simp only [weatherSpan]
    rw [hk]
    omega
  · simp [weatherSpan]
  · simp only [weatherSpan]
    rw [hk]
    have h1 : ((k : Int)).toNat = k := Int.toNat_natCast k
    have h2 : ((k : Int) + (w.length : Int)).toNat = k + w.length := by omega
    rw [h1, h2, hslice, hlow]

theorem weatherSpan_good {resp w : List Char} (desc : List Char) (hw : w ≠ [])
    (hlow : pyLower w = w) (hin : w <:+: pyLower resp) (hd : desc.length ≤ 103) :
    spanGood resp (weatherSpan resp desc w) :=
  ⟨weatherSpan_ok desc hw hlow hin, hd⟩

/-! ### The word scan and per-hit citation -/

theorem firstCiteWord_some {resp : List Char} {thresh : Nat} :
    ∀ {ws : List (List Char)} {w : List Char},
      firstCiteWord resp thresh ws = some w →
      thresh < w.length ∧ pyFind (pyLower resp) (pyLower w) ≠ -1 := by
  intro ws
  induction ws with
  | nil =>
    intro w h
    simp [firstCiteWord] at h
  | cons w0 ws ih =>
    intro w h
    by_cases hc : pyLower w0 <:+: pyLower resp ∧ thresh < w0.length ∧
        pyFind (pyLower resp) (pyLower w0) ≠ -1
    · rw [firstCiteWord, if_pos hc] at h
      cases h
      exact ⟨hc.2.1, hc.2.2⟩
    · rw [firstCiteWord, if_neg hc] at h
      exact ih h

theorem hitCitation_good {resp : List Char} {thresh : Nat} {hit : SearchHit}
    {s : CitationSpan} (h : hitCitation resp thresh hit = some s) :
    spanGood resp s := by
  unfold hitCitation at h
  cases hfw : firstCiteWord resp thresh (pySplit hit.title) with
  | none =>
    rw [hfw] at h
    simp at h
  | some w =>
    rw [hfw] at h
    simp only [Option.map_some'] at h
    obtain ⟨hth, hfind⟩ := firstCiteWord_some hfw
    have hw : w ≠ [] := by
      intro he
      rw [he] at hth
      simp at hth
    injection h with h2
    rw [← h2]
    exact mkSpan_good hit hw hfind

/-! ### Membership in the extractor loops -/

theorem wikiCapped_mem {resp : List Char} {thresh : Nat} :
    ∀ {hits : List SearchHit} {cnt : Nat} {s : CitationSpan},
      s ∈ wikiCapped resp thresh cnt hits →
      ∃ hit ∈ hits, hitCitation resp thresh hit = some s := by
  intro hits
  induction hits with
  | nil =>
    intro cnt s h
    simp [wikiCapped] at h
  | cons hit hits ih =>
    intro cnt s h
    by_cases hc : 10 ≤ cnt
    · rw [wikiCapped, if_pos hc] at h
      simp at h
    · rw [wikiCapped, if_neg hc] at h
      cases hcit : hitCitation resp thresh hit with
      | some s' =>
        rw [hcit] at h
        rcases List.mem_cons.mp h with h1 | h1
        · exact ⟨hit, by simp, by rw [hcit, h1]⟩
        · rcases ih h1 with ⟨hit', h2, h3⟩
          exact ⟨hit', by simp [h2], h3⟩
      | none =>
        rw [hcit] at h
        rcases ih h with ⟨hit', h2, h3⟩
        exact ⟨hit', by simp [h2], h3⟩

theorem wikiAll_mem {resp : List Char} {thresh : Nat} {hits : List SearchHit}
    {s : CitationSpan} (h : s ∈ wikiAll resp thresh hits) :
    ∃ hit ∈ hits, hitCitation resp thresh hit = some s := by
  rcases List.mem_filterMap.mp h with ⟨hit, h1, h2⟩
  exact ⟨hit, h1, h2⟩

theorem weatherScan_mem {resp : List Char} :
    ∀ {ws : List (List Char)} {cnt : Nat} {s : CitationSpan},
      s ∈ weatherScan resp cnt ws →
      ∃ w ∈ ws, w <:+: pyLower resp ∧ s = weatherSpan resp chatWeatherDesc w := by
  intro ws
  induction ws with
  | nil =>
    intro cnt s h
    simp [weatherScan] at h
  | cons w ws ih =>
    intro cnt s h
    by_cases hc : 10 ≤ cnt
    · rw [weatherScan, if_pos hc] at h
      simp at h
    · by_cases hin : w <:+: pyLower resp
      · rw [weatherScan, if_neg hc, if_pos hin] at h
        rcases List.mem_singleton.mp h with h1
        exact ⟨w, by simp, hin, h1⟩
      · rw [weatherScan, if_neg hc, if_neg hin] at h
        rcases ih h with ⟨w', h1, h2, h3⟩
        exact ⟨w', by simp [h1], h2, h3⟩

theorem weatherScanB_mem {resp : List Char} :
    ∀ {ws : List (List Char)} {s : CitationSpan},
      s ∈ weatherScanB resp ws →
      ∃ w ∈ ws, w <:+: pyLower resp ∧ s = weatherSpan resp bostonWeatherDesc w := by
  intro ws
  induction ws with
  | nil =>
    intro s h
    simp [weatherScanB] at h
  | cons w ws ih =>
    intro s h
    by_cases hin : w <:+: pyLower resp
    · rw [weatherScanB, if_pos hin] at h
      rcases List.mem_singleton.mp h with h1
      exact ⟨w, by simp, hin, h1⟩
    · rw [weatherScanB, if_neg hin] at h
      rcases ih h with ⟨w', h1, h2, h3⟩
      exact ⟨w', by simp [h1], h2, h3⟩

/-- Every word of either weather vocabulary is nonempty and already
    lowercase. -/
theorem weatherWords_facts :
    (∀ w ∈ chatWeatherWords, w ≠ [] ∧ pyLower w = w) ∧
    (∀ w ∈ bostonWeatherWords, w ≠ [] ∧ pyLower w = w) := by
  decide

theorem recordSpansChat_good {resp : List Char} {cnt : Nat} {rec : ToolName × ToolOutput}
    {s : CitationSpan} (h : s ∈ recordSpansChat resp cnt rec) :
    spanGood resp s := by
  obtain ⟨name, out⟩ := rec
  cases name with
  | wikipedia =>
    rw [recordSpansChat] at h
    split at h
    · rcases wikiCapped_mem h with ⟨hit, _, hcit⟩
      exact hitCitation_good hcit
    · simp at h
  | duckDuckGo =>
    rw [recordSpansChat] at h
    split at h
    · rcases wikiCapped_mem h with ⟨hit, _, hcit⟩
      exact hitCitation_good hcit
    · simp at h
  | openMeteo =>
    rw [recordSpansChat] at h
    rcases weatherScan_mem h with ⟨w, hw, hin, rfl⟩
    obtain ⟨hne, hlow⟩ := weatherWords_facts.1 w hw
    exact weatherSpan_good chatWeatherDesc hne hlow hin (by decide)

theorem recordSpansBoston_good {resp : List Char} {rec : ToolName × ToolOutput}
    {s : CitationSpan} (h : s ∈ recordSpansBoston resp rec) :
    spanGood resp s := by
  obtain ⟨name, out⟩ := rec
  cases name with
  | wikipedia =>
    rw [recordSpansBoston] at h
    split at h
    · rcases wikiAll_mem h with ⟨hit, _, hcit⟩
      exact hitCitation_good hcit
    · simp at h
  | duckDuckGo =>
    rw [recordSpansBoston] at h
    split at h
    · rcases wikiAll_mem h with ⟨hit, _, hcit⟩
      exact hitCitation_good hcit
    · simp at h
  | openMeteo =>
    rw [recordSpansBoston] at h
    rcases weatherScanB_mem h with ⟨w, hw, hin, rfl⟩
    obtain ⟨hne, hlow⟩ := weatherWords_facts.2 w hw
    exact weatherSpan_good bostonWeatherDesc hne hlow hin (by decide)

theorem extractChat_good {resp : List Char} :
    ∀ {log : List (ToolName × ToolOutput)} {cnt : Nat} {s : CitationSpan},
      s ∈ extractChat resp cnt log → spanGood resp s := by
  intro log
  induction log with
  | nil =>
    intro cnt s h
    simp [extractChat] at h
  | cons rec rest ih =>
    intro cnt s h
    by_cases hc : 10 ≤ cnt
    · rw [extractChat, if_pos hc] at h
      simp at h
    · rw [extractChat, if_neg hc] at h
      rcases List.mem_append.mp h with h1 | h1
      · exact recordSpansChat_good h1
      · exact ih h1

theorem extractBoston_good {resp : List Char} :
    ∀ {log : List (ToolName × ToolOutput)} {s : CitationSpan},
      s ∈ extractBoston resp log → spanGood resp s := by
  intro log
  induction log with
  | nil =>
    intro s h
    simp [extractBoston] at h
  | cons rec rest ih =>
    intro s h
    rw [extractBoston] at h
    rcases List.mem_append.mp h with h1 | h1
    · exact recordSpansBoston_good h1
    · exact ih h1

/-! ### The citation cap of chat-agent.py -/

theorem wikiCapped_length {resp : List Char} {thresh : Nat} :
    ∀ (hits : List SearchHit) (cnt : Nat),
      (wikiCapped resp thresh cnt hits).length ≤ 10 - cnt := by
  intro hits
  induction hits with
  | nil =>
    intro cnt
    simp [wikiCapped]
  | cons hit hits ih =>
    intro cnt
    by_cases hc : 10 ≤ cnt
    · rw [wikiCapped, if_pos hc]
      simp
    · rw [wikiCapped, if_neg hc]
      cases hitCitation resp thresh hit with
      | some s =>
        have := ih (cnt + 1)
        simp only [List.length_cons]
        omega
      | none =>
        exact ih cnt

theorem weatherScan_length {resp : List Char} :
    ∀ (ws : List (List Char)) (cnt : Nat),
      (weatherScan resp cnt ws).length ≤ 10 - cnt := by
  intro ws
  induction ws with
  | nil =>
    intro cnt
    simp [weatherScan]
  | cons w ws ih =>
    intro cnt
    by_cases hc : 10 ≤ cnt
    · rw [weatherScan, if_pos hc]
      simp
    · rw [weatherScan, if_neg hc]
      by_cases hin : w <:+: pyLower resp
      · rw [if_pos hin]
        simp
        omega
      · rw [if_neg hin]
        exact ih cnt

theorem recordSpansChat_length {resp : List Char} (rec : ToolName × ToolOutput) (cnt : Nat) :
    (recordSpansChat resp cnt rec).length ≤ 10 - cnt := by
  obtain ⟨name, out⟩ := rec
  cases name with
  | wikipedia =>
    rw [recordSpansChat]
    split
    · exact wikiCapped_length _ cnt
    · simp
  | duckDuckGo =>
    rw [recordSpansChat]
    split
    · exact wikiCapped_length _ cnt
    · simp
  | openMeteo =>
    rw [recordSpansChat]
    exact weatherScan_length _ cnt

theorem extractChat_length {resp : List Char} :
    ∀ (log : List (ToolName × ToolOutput)) (cnt : Nat),
      (extractChat resp cnt log).length ≤ 10 - cnt := by
  intro log
  induction log with
  | nil =>
    intro cnt
    simp [extractChat]
  | cons rec rest ih =>
    intro cnt
    by_cases hc : 10 ≤ cnt
    · rw [extractChat, if_pos hc]
      simp
    · rw [extractChat, if_neg hc]
      have h1 : (recordSpansChat resp cnt rec).length ≤ 10 - cnt :=
        recordSpansChat_length rec cnt
      have h2 := ih (cnt + (recordSpansChat resp cnt rec).length)
      simp only [List.length_append]
      omega

/-! ### Trajectory classifier lemmas -/

theorem dropWhile_eq_self_of_pre {p : Char → Bool} {m t : List Char}
    (hm : m.dropWhile p = m) (ht : t <+: m) : t.dropWhile p = t := by
  cases t with
  | nil => simp
  | cons a t2 =>
    cases m with
    | nil =>
      have : (a :: t2 : List Char) = [] := List.prefix_nil.mp ht
      simp at this
    | cons b m2 =>
      obtain ⟨r, hr⟩ := ht
      have hab : a = b := by
        have := congrArg (fun l => l.head?) hr
        simpa using this
      subst hab
      by_cases hpa : p a = true
      · rw [List.dropWhile_cons, if_pos hpa] at hm
        have h1 := congrArg List.length hm
        have h2 := (List.dropWhile_sublist (l := m2) p).length_le
        simp at h1
        omega
      · rw [List.dropWhile_cons, if_neg hpa]

theorem pyStrip_idem (l : List Char) : pyStrip (pyStrip l) = pyStrip l := by
  unfold pyStrip
  have h1 : (l.dropWhile isWs).dropWhile isWs = l.dropWhile isWs :=
    List.dropWhile_idempotent isWs l
  have h2 : List.rdropWhile isWs (l.dropWhile isWs) <+: l.dropWhile isWs :=
    List.rdropWhile_prefix _ _
  have h3 : (List.rdropWhile isWs (l.dropWhile isWs)).dropWhile isWs =
      List.rdropWhile isWs (l.dropWhile isWs) :=
    dropWhile_eq_self_of_pre h1 h2
  rw [h3, List.rdropWhile_idempotent]

theorem emitSteps_length :
    ∀ (steps : List (List Char)) (i : Nat),
      (emitSteps i steps).length =
        (steps.filter (fun st => !(pyStrip st).isEmpty)).length := by
  intro steps
  induction steps with
  | nil =>
    intro i
    rfl
  | cons st rest ih =>
    intro i
    by_cases h : (pyStrip st).isEmpty
    · rw [emitSteps, if_pos h]
      simp [List.filter_cons, h, ih (i + 1)]
    · rw [emitSteps, if_neg h]
      have h2 : (pyStrip st).isEmpty = false := by
        revert h
        cases (pyStrip st).isEmpty <;> simp
      simp [List.filter_cons, h2, ih (i + 1)]

theorem emitSteps_index_gt :
    ∀ (steps : List (List Char)) (i : Nat) (s : TrajectoryStep),
      s ∈ emitSteps i steps → i < s.index := by
  intro steps
  induction steps with
  | nil =>
    intro i s h
    simp [emitSteps] at h
  | cons st rest ih =>
    intro i s h
    by_cases hb : (pyStrip st).isEmpty
    · rw [emitSteps, if_pos hb] at h
      have := ih (i + 1) s h
      omega
    · rw [emitSteps, if_neg hb] at h
      rcases List.mem_cons.mp h with h1 | h1
      · rw [h1]
        show i < i + 1
        omega
      · have := ih (i + 1) s h1
        omega

theorem emitSteps_pairwise :
    ∀ (steps : List (List Char)) (i : Nat),
      (emitSteps i steps).Pairwise (fun a b => a.index < b.index) := by
  intro steps
  induction steps with
  | nil =>
    intro i
    simp [emitSteps]
  | cons st rest ih =>
    intro i
    by_cases hb : (pyStrip st).isEmpty
    · rw [emitSteps, if_pos hb]
      exact ih (i + 1)
    · rw [emitSteps, if_neg hb]
      refine List.Pairwise.cons ?_ (ih (i + 1))
      intro b hb2
      have h3 := emitSteps_index_gt rest (i + 1) b hb2
      show i + 1 < b.index
      omega

theorem emitSteps_rawText_mem :
    ∀ (steps : List (List Char)) (i : Nat) (s : TrajectoryStep),
      s ∈ emitSteps i steps → s.rawText ∈ steps := by
  intro steps
  induction steps with
  | nil =>
    intro i s h
    simp [emitSteps] at h
  | cons st rest ih =>
    intro i s h
    by_cases hb : (pyStrip st).isEmpty
    · rw [emitSteps, if_pos hb] at h
      exact List.mem_cons_of_mem st (ih (i + 1) s h)
    · rw [emitSteps, if_neg hb] at h
      rcases List.mem_cons.mp h with h1 | h1
      · rw [h1]
        simp
      · exact List.mem_cons_of_mem st (ih (i + 1) s h1)

/-! ### Anchoring: every emitted span carries its matched anchor word -/

theorem firstCiteWord_mem {resp : List Char} {thresh : Nat} :
    ∀ {ws : List (List Char)} {w : List Char},
      firstCiteWord resp thresh ws = some w → w ∈ ws := by
  intro ws
  induction ws with
  | nil =>
    intro w h
    simp [firstCiteWord] at h
  | cons w0 ws ih =>
    intro w h
    by_cases hc : pyLower w0 <:+: pyLower resp ∧ thresh < w0.length ∧
        pyFind (pyLower resp) (pyLower w0) ≠ -1
    · rw [firstCiteWord, if_pos hc] at h
      cases h
      simp
    · rw [firstCiteWord, if_neg hc] at h
      exact List.mem_cons_of_mem w0 (ih h)

theorem mkSpan_anchored {resp : List Char} (hit : SearchHit) {w : List Char}
    (hw : w ≠ []) (hfind : pyFind (pyLower resp) (pyLower w) ≠ -1) :
    spanAnchored resp (mkSpan resp hit w) w := by
  rcases span_core hfind with ⟨k, hk, hle, hslice⟩
  rw [pyLower_length] at hle hslice
  have hwpos : 0 < w.length := List.length_pos.mpr hw
  refine ⟨hw, ?_, ?_, ?_, rfl, rfl, ?_⟩
  · simp only [mkSpan]
    rw [hk]
    omega
  · simp only [mkSpan]
    omega
  · simp only [mkSpan]
    rw [hk]
    omega
  · simp only [mkSpan]
    rw [hk]
    have h1 : ((k : Int)).toNat = k := Int.toNat_natCast k
    have h2 : ((k : Int) + (w.length : Int)).toNat = k + w.length := by omega
    rw [h1, h2, hslice]

theorem weatherSpan_anchored {resp w : List Char} (desc : List Char) (hw : w ≠ [])
    (hlow : pyLower w = w) (hin : w <:+: pyLower resp) :
    spanAnchored resp (weatherSpan resp desc w) w := by
  have hfind : pyFind (pyLower resp) w ≠ -1 := pyFind_ne_neg_of_infix hin
  rcases span_core hfind with ⟨k, hk, hle, hslice⟩
  have hwpos : 0 < w.length := List.length_pos.mpr hw
  refine ⟨hw, ?_, ?_, ?_, ?_, rfl, ?_⟩
  · simp only [weatherSpan]
    rw [hk]
    omega
  · simp only [weatherSpan]
    omega
  · simp only [weatherSpan]
    rw [hk]
    omega
  · simp only [weatherSpan]
    rw [hlow]
  · simp only [weatherSpan]
    rw [hk]
    have h1 : ((k : Int)).toNat = k := Int.toNat_natCast k
    have h2 : ((k : Int) + (w.length : Int)).toNat = k + w.length := by omega
    rw [h1, h2, hslice, hlow]

theorem hitCitation_anchored {resp : List Char} {thresh : Nat} {hit : SearchHit}
    {s : CitationSpan} (h : hitCitation resp thresh hit = some s) :
    ∃ w ∈ pySplit hit.title, spanAnchored resp s w := by
  unfold hitCitation at h
  cases hfw : firstCiteWord resp thresh (pySplit hit.title) with
  | none =>
    rw [hfw] at h
    simp at h
  | some w =>
    rw [hfw] at h
    simp only [Option.map_some'] at h
    obtain ⟨hth, hfind⟩ := firstCiteWord_some hfw
    have hw : w ≠ [] := by
      intro he
      rw [he] at hth
      simp at hth
    injection h with h2
    exact ⟨w, firstCiteWord_mem hfw, h2 ▸ mkSpan_anchored hit hw hfind⟩

theorem recordSpansChat_anchored {resp : List Char} {cnt : Nat}
    {rec : ToolName × ToolOutput} {s : CitationSpan}
    (h : s ∈ recordSpansChat resp cnt rec) :
    ∃ w, ((∃ hit ∈ hitsOf rec.2, w ∈ pySplit hit.title) ∨ w ∈ chatWeatherWords) ∧
      spanAnchored resp s w := by
  obtain ⟨name, out⟩ := rec
  cases name with
  | wikipedia =>
    rw [recordSpansChat] at h
    split at h
    · rcases wikiCapped_mem h with ⟨hit, hhit, hcit⟩
      rcases hitCitation_anchored hcit with ⟨w, hww, hanch⟩
      exact ⟨w, Or.inl ⟨hit, hhit, hww⟩, hanch⟩
    · simp at h
  | duckDuckGo =>
    rw [recordSpansChat] at h
    split at h
    · rcases wikiCapped_mem h with ⟨hit, hhit, hcit⟩
      rcases hitCitation_anchored hcit with ⟨w, hww, hanch⟩
      exact ⟨w, Or.inl ⟨hit, hhit, hww⟩, hanch⟩
    · simp at h
  | openMeteo =>
    rw [recordSpansChat] at h
    rcases weatherScan_mem h with ⟨w, hww, hin, rfl⟩
    obtain ⟨hne, hlow⟩ := weatherWords_facts.1 w hww
    exact ⟨w, Or.inr hww, weatherSpan_anchored chatWeatherDesc hne hlow hin⟩

theorem recordSpansBoston_anchored {resp : List Char}
    {rec : ToolName × ToolOutput} {s : CitationSpan}
    (h : s ∈ recordSpansBoston resp rec) :
    ∃ w, ((∃ hit ∈ hitsOf rec.2, w ∈ pySplit hit.title) ∨ w ∈ bostonWeatherWords) ∧
      spanAnchored resp s w := by
  obtain ⟨name, out⟩ := rec
  cases name with
  | wikipedia =>
    rw [recordSpansBoston] at h
    split at h
    · rcases wikiAll_mem h with ⟨hit, hhit, hcit⟩
      rcases hitCitation_anchored hcit with ⟨w, hww, hanch⟩
      exact ⟨w, Or.inl ⟨hit, hhit, hww⟩, hanch⟩
    · simp at h
  | duckDuckGo =>
    rw [recordSpansBoston] at h
    split at h
    · rcases wikiAll_mem h with ⟨hit, hhit, hcit⟩
      rcases hitCitation_anchored hcit with ⟨w, hww, hanch⟩
      exact ⟨w, Or.inl ⟨hit, hhit, hww⟩, hanch⟩
    · simp at h
  | openMeteo =>
    rw [recordSpansBoston] at h
    rcases weatherScanB_mem h with ⟨w, hww, hin, rfl⟩
    obtain ⟨hne, hlow⟩ := weatherWords_facts.2 w hww
    exact ⟨w, Or.inr hww, weatherSpan_anchored bostonWeatherDesc hne hlow hin⟩

theorem extractChat_anchored {resp : List Char} :
    ∀ {log : List (ToolName × ToolOutput)} {cnt : Nat} {s : CitationSpan},
      s ∈ extractChat resp cnt log →
      ∃ w, ((∃ rec ∈ log, ∃ hit ∈ hitsOf rec.2, w ∈ pySplit hit.title) ∨
          w ∈ chatWeatherWords) ∧ spanAnchored resp s w := by
  intro log
  induction log with
  | nil =>
    intro cnt s h
    simp [extractChat] at h
  | cons rec rest ih =>
    intro cnt s h
    by_cases hc : 10 ≤ cnt
    · rw [extractChat, if_pos hc] at h
      simp at h
    · rw [extractChat, if_neg hc] at h
      rcases List.mem_append.mp h with h1 | h1
      · rcases recordSpansChat_anchored h1 with ⟨w, hprov, hanch⟩
        refine ⟨w, ?_, hanch⟩
        rcases hprov with ⟨hit, hhit, hww⟩ | hvocab
        · exact Or.inl ⟨rec, by simp, hit, hhit, hww⟩
        · exact Or.inr hvocab
      · rcases ih h1 with ⟨w, hprov, hanch⟩
        refine ⟨w, ?_, hanch⟩
        rcases hprov with ⟨rec2, hrec2, hrest⟩ | hvocab
        · exact Or.inl ⟨rec2, by simp [hrec2], hrest⟩
        · exact Or.inr hvocab

theorem extractBoston_anchored {resp : List Char} :
    ∀ {log : List (ToolName × ToolOutput)} {s : CitationSpan},
      s ∈ extractBoston resp log →
      ∃ w, ((∃ rec ∈ log, ∃ hit ∈ hitsOf rec.2, w ∈ pySplit hit.title) ∨
          w ∈ bostonWeatherWords) ∧ spanAnchored resp s w := by
  intro log
  induction log with
  | nil =>
    intro s h
    simp [extractBoston] at h
  | cons rec rest ih =>
    intro s h
    rw [extractBoston] at h
    rcases List.mem_append.mp h with h1 | h1
    · rcases recordSpansBoston_anchored h1 with ⟨w, hprov, hanch⟩
      refine ⟨w, ?_, hanch⟩
      rcases hprov with ⟨hit, hhit, hww⟩ | hvocab
      · exact Or.inl ⟨rec, by simp, hit, hhit, hww⟩
      · exact Or.inr hvocab
    · rcases ih h1 with ⟨w, hprov, hanch⟩
      refine ⟨w, ?_, hanch⟩
      rcases hprov with ⟨rec2, hrec2, hrest⟩ | hvocab
      · exact Or.inl ⟨rec2, by simp [hrec2], hrest⟩
      · exact Or.inr hvocab

/-! ### Claim theorems -/

/-- C1 (amended): the chat-agent citation loop emits at most 10 citation
    spans for every answer text and every invocation log; the boston-guide
    loop in citation-agent.py applies no such cap (see the counterexample). -/
theorem claim1_cap_amended (resp : List Char) (log : List (ToolName × ToolOutput)) :
    (extractChat resp 0 log).length ≤ 10 := by
  have h : (extractChat resp 0 log).length ≤ 10 - 0 := extractChat_length log 0
  omega

/-- C1 counterexample: the boston-guide extractor of citation-agent.py has no
    cap; a log of 11 matching Wikipedia records yields 11 citation spans,
    refuting the global at-most-10 bound claimed for the Citation Extractor. -/
theorem claim1_counterexample :
    (extractBoston ("Boston".data) log11).length = 11 ∧
    ¬((extractBoston ("Boston".data) log11).length ≤ 10) := by
  have h : (extractBoston ("Boston".data) log11).length = 11 := by decide
  exact ⟨h, by omega⟩

/-- C2 (amended): for the answer "expect sunny and warm weather tomorrow"
    and a log with one OpenMeteo record, the chat extractor emits exactly one
    citation, anchored at the first occurrence of "weather" — the first
    vocabulary word contained in the answer — with the fixed
    url/title/description triple; the offset is 22, not the offset of
    "sunny". -/
theorem claim2_amended (out : ToolOutput) :
    extractChat respW 0 [(ToolName.openMeteo, out)] = [exSpanW] ∧
    exSpanW.startOffset = pyFind (pyLower respW) ("weather".data) ∧
    pyFind (pyLower respW) ("weather".data) = 22 := by
  refine ⟨?_, rfl, by decide⟩
  simp only [extractChat, recordSpansChat]
  decide

/-- C2 counterexample: the citation for the WeatherLookup record is anchored
    at offset 22 (the word "weather"), while the first occurrence of "sunny"
    is at offset 7, so the claim that it is anchored at "sunny" fails. -/
theorem claim2_counterexample :
    extractChat respW 0 logW = [exSpanW] ∧
    exSpanW.startOffset = 22 ∧
    pyFind (pyLower respW) ("sunny".data) = 7 ∧
    pySliceNat respW 22 29 = "weather".data ∧
    (22 : Int) ≠ 7 := by
  refine ⟨by decide, by decide, by decide, by decide, by decide⟩

/-- C3: every span emitted by either extractor is anchored at its matched
    anchor word: there is a word w — a whitespace-split word of some hit
    title in the invocation log, or a weather vocabulary word — such that
    0 ≤ startOffset < endOffset ≤ len(answerText), startOffset is the index
    of the first case-insensitive occurrence of w in the answer,
    endOffset = startOffset + len(w), and the substring
    answerText[startOffset:endOffset] equals w under case-insensitive
    comparison. -/
theorem claim3_span_invariants (resp : List Char) (log : List (ToolName × ToolOutput))
    (s : CitationSpan)
    (h : s ∈ extractChat resp 0 log ∨ s ∈ extractBoston resp log) :
    ∃ w : List Char,
      ((∃ rec ∈ log, ∃ hit ∈ hitsOf rec.2, w ∈ pySplit hit.title) ∨
        w ∈ chatWeatherWords ∨ w ∈ bostonWeatherWords) ∧
      w ≠ [] ∧ 0 ≤ s.startOffset ∧ s.startOffset < s.endOffset ∧
      s.endOffset ≤ (resp.length : Int) ∧
      s.startOffset = pyFind (pyLower resp) (pyLower w) ∧
      s.endOffset = s.startOffset + (w.length : Int) ∧
      pyLower (pySliceNat resp s.startOffset.toNat s.endOffset.toNat) = pyLower w := by
  rcases h with h | h
  · rcases extractChat_anchored h with ⟨w, hprov, h1, h2, h3, h4, h5, h6, h7⟩
    refine ⟨w, ?_, h1, h2, h3, h4, h5, h6, h7⟩
    rcases hprov with hp | hp
    · exact Or.inl hp
    · exact Or.inr (Or.inl hp)
  · rcases extractBoston_anchored h with ⟨w, hprov, h1, h2, h3, h4, h5, h6, h7⟩
    refine ⟨w, ?_, h1, h2, h3, h4, h5, h6, h7⟩
    rcases hprov with hp | hp
    · exact Or.inl hp
    · exact Or.inr (Or.inr hp)

/-- C3 witness: the anchored invariant instantiated at the weather scenario
    span. -/
theorem claim3_witness :
    ∃ w : List Char,
      ((∃ rec ∈ logW, ∃ hit ∈ hitsOf rec.2, w ∈ pySplit hit.title) ∨
        w ∈ chatWeatherWords ∨ w ∈ bostonWeatherWords) ∧
      w ≠ [] ∧ 0 ≤ exSpanW.startOffset ∧ exSpanW.startOffset < exSpanW.endOffset ∧
      exSpanW.endOffset ≤ (respW.length : Int) ∧
      exSpanW.startOffset = pyFind (pyLower respW) (pyLower w) ∧
      exSpanW.endOffset = exSpanW.startOffset + (w.length : Int) ∧
      pyLower (pySliceNat respW exSpanW.startOffset.toNat exSpanW.endOffset.toNat) =
        pyLower w :=
  claim3_span_invariants respW logW exSpanW (Or.inl (by decide))

/-- C4 (amended): emitted trajectory indices are strictly increasing and the
    number of emitted steps equals the number of non-blank lines, but the
    index is one plus the line's position among all captured lines, so blank
    lines consume index values and gaps occur (see the counterexample). -/
theorem claim4_amended (lines : List (List Char)) :
    ((trajectorySteps lines).map TrajectoryStep.index).Pairwise (· < ·) ∧
    (trajectorySteps lines).length =
      (lines.filter (fun l => !(pyStrip l).isEmpty)).length := by
  constructor
  · rw [List.pairwise_map]
    exact emitSteps_pairwise (captureAll lines) 0
  · rw [trajectorySteps, emitSteps_length, captureAll, List.filter_map,
      List.length_map]
    exact congrArg List.length
      (List.filter_congr (fun l _ => by simp [Function.comp, pyStrip_idem l]))

/-- C4 counterexample: with lines "a", " ", "b" the blank middle line is
    skipped but still consumes an index, so the emitted indices are ⟨1, 3⟩
    rather than the gap-free ⟨1, 2⟩ the claim requires. -/
theorem claim4_counterexample :
    (trajectorySteps exLines4).map TrajectoryStep.index = [1, 3] ∧
    (exLines4.filter (fun l => !(pyStrip l).isEmpty)).length = 2 ∧
    (trajectorySteps exLines4).map TrajectoryStep.index ≠ [1, 2] := by
  refine ⟨by decide, by decide, by decide⟩

/-- C5 (amended): the rawText of every emitted trajectory step is the
    whitespace-stripped form of some input line — `TrajectoryCapture.write`
    strips each line before storing it, so the original untrimmed line is
    not preserved (see the counterexample). -/
theorem claim5_amended (lines : List (List Char)) (s : TrajectoryStep)
    (hs : s ∈ trajectorySteps lines) :
    ∃ l ∈ lines, s.rawText = pyStrip l := by
  have h1 := emitSteps_rawText_mem (captureAll lines) 0 s hs
  rw [captureAll] at h1
  rcases List.mem_map.mp h1 with ⟨l, hl, he⟩
  exact ⟨l, hl, he.symm⟩

/-- C5 counterexample: the line "  hi  " is emitted with rawText "hi", not
    the original untrimmed line. -/
theorem claim5_counterexample :
    trajectorySteps exLines5 =
      [{ index := 1, rawText := "hi".data, toolName := none }] ∧
    "hi".data ≠ "  hi  ".data := by
  refine ⟨by decide, by decide⟩

/-- C5 witness: the amended claim instantiated on the padded line. -/
theorem claim5_witness :
    ∃ l ∈ exLines5,
      ({ index := 1, rawText := "hi".data, toolName := none } :
        TrajectoryStep).rawText = pyStrip l :=
  claim5_amended exLines5 _ (by decide)

/-- C6 (amended): every emitted citation span's description is at most 103
    characters (a 100-character prefix plus a 3-character ellipsis); the
    at-most-100 bound of the claim fails (see the counterexample). -/
theorem claim6_amended (resp : List Char) (log : List (ToolName × ToolOutput))
    (s : CitationSpan)
    (h : s ∈ extractChat resp 0 log ∨ s ∈ extractBoston resp log) :
    s.description.length ≤ 103 := by
  rcases h with h | h
  · exact (extractChat_good h).2
  · exact (extractBoston_good h).2

set_option maxRecDepth 8000 in
/-- C6 counterexample: a hit with a 150-character description yields an
    emitted span whose description is 103 characters long, exceeding 100. -/
theorem claim6_counterexample :
    extractChat ("Boston".data) 0 log150 =
      [{ url := "u".data, title := "Boston".data,
         description := List.replicate 100 'x' ++ ['.', '.', '.'],
         startOffset := 0, endOffset := 6 }] ∧
    (List.replicate 100 'x' ++ ['.', '.', '.']).length = 103 ∧
    ¬((List.replicate 100 'x' ++ ['.', '.', '.']).length ≤ 100) := by
  refine ⟨by decide, by decide, by decide⟩

set_option maxRecDepth 8000 in
/-- C6 witness: the 103-bound instantiated at the long-description span. -/
theorem claim6_witness :
    ({ url := "u".data, title := "Boston".data,
       description := List.replicate 100 'x' ++ ['.', '.', '.'],
       startOffset := 0, endOffset := 6 } : CitationSpan).description.length ≤ 103 :=
  claim6_amended ("Boston".data) log150 _ (Or.inl (by decide))

/-- C7: descriptions of length at most 100 pass through the truncation
    unchanged (in particular one of exactly 100 characters), and longer ones
    become their 100-character prefix followed by the 3-character ellipsis
    (in particular a 150-character one). -/
theorem claim7_truncation (d : List Char) :
    (d.length ≤ 100 → truncDesc d = d) ∧
    (100 < d.length → truncDesc d = d.take 100 ++ ['.', '.', '.']) := by
  constructor
  · intro h
    rw [truncDesc, if_neg (by omega)]
  · intro h
    rw [truncDesc, if_pos h]

set_option maxRecDepth 8000 in
/-- C7 witness: truncation evaluated at a 150-character and a 100-character
    description. -/
theorem claim7_witness :
    truncDesc (List.replicate 150 'x') =
      (List.replicate 150 'x').take 100 ++ ['.', '.', '.'] ∧
    truncDesc (List.replicate 100 'y') = List.replicate 100 'y' :=
  ⟨(claim7_truncation (List.replicate 150 'x')).2 (by decide),
    (claim7_truncation (List.replicate 100 'y')).1 (by decide)⟩

/-- C8: the tracking wrapper returns exactly the underlying call's outcome;
    on success it appends exactly one (kind, result) entry to the log, and on
    failure it appends nothing — the log is left exactly as it was and the
    exception propagates unchanged. -/
theorem claim8_recorder {α : Type} (underlying : α → PyResult ToolOutput)
    (kind : ToolName) (log : List (ToolName × ToolOutput)) (inp : α) :
    (trackedRun underlying kind log inp).2 = underlying inp ∧
    (∀ r, underlying inp = PyResult.ok r →
      (trackedRun underlying kind log inp).1 = log ++ [(kind, r)]) ∧
    (∀ e, underlying inp = PyResult.exn e →
      (trackedRun underlying kind log inp).1 = log) := by
  unfold trackedRun
  cases h : underlying inp with
  | ok r =>
    refine ⟨rfl, ?_, ?_⟩
    · intro r2 h2
      injection h2 with h3
      rw [h3]
    · intro e h2
      exact PyResult.noConfusion h2
  | exn e =>
    refine ⟨rfl, ?_, ?_⟩
    · intro r2 h2
      exact PyResult.noConfusion h2
    · intro e2 h2
      rfl

/-- C8 witness: the wrapper applied to one succeeding and one failing
    underlying call. -/
theorem claim8_witness :
    (trackedRun (fun _ : Nat => PyResult.ok ToolOutput.unstructured)
        ToolName.openMeteo [] 0).1 =
      [] ++ [(ToolName.openMeteo, ToolOutput.unstructured)] ∧
    (trackedRun (fun _ : Nat => (PyResult.exn "boom".data : PyResult ToolOutput))
        ToolName.openMeteo [(ToolName.wikipedia, ToolOutput.unstructured)] 0).1 =
      [(ToolName.wikipedia, ToolOutput.unstructured)] :=
  ⟨(claim8_recorder _ _ _ _).2.1 ToolOutput.unstructured rfl,
    (claim8_recorder _ _ _ _).2.2 ("boom".data) rfl⟩

/-- C9 (amended): two hits whose matched anchor words are case-insensitively
    equal always receive identical start and end offsets, because offset
    resolution searches the whole answer from the beginning for each hit;
    for hits merely sharing the title word "Boston" the matched words can
    differ and so can the offsets (see the counterexample). -/
theorem claim9_amended (resp : List Char) (t1 t2 : Nat) (hit1 hit2 : SearchHit)
    (w1 w2 : List Char)
    (h1 : firstCiteWord resp t1 (pySplit hit1.title) = some w1)
    (h2 : firstCiteWord resp t2 (pySplit hit2.title) = some w2)
    (hw : pyLower w1 = pyLower w2) :
    hitCitation resp t1 hit1 = some (mkSpan resp hit1 w1) ∧
    hitCitation resp t2 hit2 = some (mkSpan resp hit2 w2) ∧
    (mkSpan resp hit1 w1).startOffset = (mkSpan resp hit2 w2).startOffset ∧
    (mkSpan resp hit1 w1).endOffset = (mkSpan resp hit2 w2).endOffset := by
  have hlen : w1.length = w2.length := by
    have h3 := congrArg List.length hw
    rw [pyLower_length, pyLower_length] at h3
    exact h3
  refine ⟨?_, ?_, ?_, ?_⟩
  · rw [hitCitation, h1, Option.map_some']
  · rw [hitCitation, h2, Option.map_some']
  · simp only [mkSpan]
    rw [hw]
  · simp only [mkSpan]
    rw [hw, hlen]

/-- C9 counterexample: both titles contain the word "Boston" and the answer
    "Boston harbor" contains "Boston" exactly once, yet the two hits get
    different offsets — the second hit's scan matches "Harbor" first. -/
theorem claim9_counterexample :
    "Boston".data ∈ pySplit ("Boston".data) ∧
    "Boston".data ∈ pySplit ("Harbor Boston".data) ∧
    hitCitation ("Boston harbor".data) 3 ⟨"Boston".data, "u1".data, "d1".data⟩ =
      some ⟨"u1".data, "Boston".data, "d1".data, 0, 6⟩ ∧
    hitCitation ("Boston harbor".data) 3 ⟨"Harbor Boston".data, "u2".data, "d2".data⟩ =
      some ⟨"u2".data, "Harbor Boston".data, "d2".data, 7, 13⟩ ∧
    (0 : Int) ≠ 7 := by
  refine ⟨by decide, by decide, by decide, by decide, by decide⟩

/-- C9 witness: two Boston hits whose matched word is "Boston" in both cases
    receive identical offsets. -/
theorem claim9_witness :
    hitCitation respC 3 hitC1 = some (mkSpan respC hitC1 ("Boston".data)) ∧
    hitCitation respC 3 hitC2 = some (mkSpan respC hitC2 ("Boston".data)) ∧
    (mkSpan respC hitC1 ("Boston".data)).startOffset =
      (mkSpan respC hitC2 ("Boston".data)).startOffset ∧
    (mkSpan respC hitC1 ("Boston".data)).endOffset =
      (mkSpan respC hitC2 ("Boston".data)).endOffset :=
  claim9_amended respC 3 3 hitC1 hitC2 ("Boston".data) ("Boston".data)
    (by decide) (by decide) rfl

/-- C10: in the weather branch the `find` on the lowercased answer runs
    under the guard that the vocabulary word occurs in it, so it never
    returns -1 and no emitted weather citation carries startOffset = -1 —
    the unchecked error case is unreachable, in both source files. -/
theorem claim10_weather_find_safe (resp : List Char) (cnt : Nat)
    (ws : List (List Char)) (s : CitationSpan)
    (h : s ∈ weatherScan resp cnt ws ∨ s ∈ weatherScanB resp ws) :
    s.startOffset ≠ -1 ∧ 0 ≤ s.startOffset := by
  have key : ∀ w : List Char, w <:+: pyLower resp →
      pyFind (pyLower resp) w ≠ -1 ∧ 0 ≤ pyFind (pyLower resp) w := by
    intro w hin
    have h1 := pyFind_ne_neg_of_infix hin
    exact ⟨h1, pyFind_nonneg h1⟩
  rcases h with h | h
  · rcases weatherScan_mem h with ⟨w, _, hin, rfl⟩
    exact key w hin
  · rcases weatherScanB_mem h with ⟨w, _, hin, rfl⟩
    exact key w hin

/-- C10 witness: the weather span of the weather scenario. -/
theorem claim10_witness :
    exSpanW.startOffset ≠ -1 ∧ 0 ≤ exSpanW.startOffset :=
  claim10_weather_find_safe respW 0 chatWeatherWords exSpanW (Or.inl (by decide))
